import Mathlib

/-!
Shallow embedding of `lib/common/socket.c` (h2o TLS-over-stream socket core):
the error catalog, the SSL decode loop, the SSL shutdown dispatcher, the
export entry point, the latency-optimized write sizing, the async-resumption
recording step of `proceed_handshake`, ALPN selection and the peer-address
comparator.  External collaborators (the OpenSSL engine, the kernel's
TCP_INFO, the event-loop backend) are modelled as oracle inputs: their return
values are free parameters of the embedded functions.
-/

namespace H2OSocket

/-! ## Error catalog (socket.c lines 117-124)

The exported constant error strings.  In C these are `const char *` globals;
consumers branch on errors by pointer comparison against them.  We model each
constant by its string value (the eight constants have pairwise distinct
values, so value comparison is faithful to pointer comparison here). -/

def h2o_socket_error_out_of_memory : String := "out of memory"

def h2o_socket_error_io : String := "I/O error"

def h2o_socket_error_closed : String := "socket closed by peer"

def h2o_socket_error_conn_fail : String := "connection failure"

def h2o_socket_error_ssl_no_cert : String := "no certificate"

def h2o_socket_error_ssl_cert_invalid : String := "invalid certificate"

def h2o_socket_error_ssl_cert_name_mismatch : String := "certificate name mismatch"

def h2o_socket_error_ssl_decode : String := "SSL decode error"

/-- The complete list of exported constant error strings defined at
socket.c lines 117-124 (the error catalog). -/
def errorCatalog : List String :=
  [h2o_socket_error_out_of_memory, h2o_socket_error_io, h2o_socket_error_closed,
   h2o_socket_error_conn_fail, h2o_socket_error_ssl_no_cert,
   h2o_socket_error_ssl_cert_invalid, h2o_socket_error_ssl_cert_name_mismatch,
   h2o_socket_error_ssl_decode]

/-- The string literal returned by `decode_ssl_input` at socket.c line 234 when
renegotiation is detected.  It is a function-local literal in the C source,
not one of the exported catalog constants. -/
def renegotiationErrorLiteral : String := "ssl renegotiation not supported"

/-! ## Decode loop (`decode_ssl_input`, socket.c lines 218-249)

One loop iteration calls `SSL_read` once.  The engine's behaviour at each call
is an oracle step: the value returned by `SSL_read`, whether `write_bio` set
the `did_write_in_read` flag during the call, whether `SSL_get_error` reports
`SSL_ERROR_WANT_READ`, and the sizes governing the next loop-condition test
(`encrypted->size` and `SSL_pending` after the call).  `reserveOk` models
success of the `h2o_buffer_reserve(&sock->input, 4096)` preceding the call. -/

structure SslReadStep where
  reserveOk : Bool
  rlen : Int
  didWrite : Bool
  wantRead : Bool
  encAfter : Nat
  pendingAfter : Bool
deriving DecidableEq, Repr

/-- Result of `decode_ssl_input`: `ok` is the C function returning 0 (carrying
the visible input-buffer size accumulated by `sock->input->size += rlen`),
`err` is a returned error string, `outOfScript` marks a run longer than the
supplied oracle script (no corresponding C outcome; never reached by the
theorems below). -/
inductive DecodeResult where
  | ok (inputSize : Int)
  | err (e : String)
  | outOfScript
deriving DecidableEq, Repr

/-- The `while` loop of `decode_ssl_input` (socket.c lines 223-246), one oracle
step per `SSL_read` call.  `enc` is `sock->ssl->input.encrypted->size`,
`pending` is `SSL_pending(sock->ssl->ssl) != 0`, `inputSize` is
`sock->input->size`. -/
def decodeLoop (enc : Nat) (pending : Bool) (inputSize : Int) :
    List SslReadStep → DecodeResult
  | [] => if enc = 0 ∧ pending = false then .ok inputSize else .outOfScript
  | s :: rest =>
    if enc = 0 ∧ pending = false then .ok inputSize
    else if s.reserveOk = false then .err h2o_socket_error_out_of_memory
    else if s.didWrite then .err renegotiationErrorLiteral
    else if s.rlen = -1 then
      if s.wantRead then .ok inputSize else .err h2o_socket_error_ssl_decode
    else if s.rlen = 0 then .ok inputSize
    else decodeLoop s.encAfter s.pendingAfter (inputSize + s.rlen) rest

/-- Mirror of `decodeLoop`'s recursion that records whether an executed
`SSL_read` call set the `did_write_in_read` flag (i.e. whether the loop
actually reaches a script step whose `didWrite` is set before exiting). -/
def decodeLoopHitsDidWrite (enc : Nat) (pending : Bool) :
    List SslReadStep → Bool
  | [] => false
  | s :: rest =>
    if enc = 0 ∧ pending = false then false
    else if s.reserveOk = false then false
    else if s.didWrite then true
    else if s.rlen = -1 then false
    else if s.rlen = 0 then false
    else decodeLoopHitsDidWrite s.encAfter s.pendingAfter rest

/-! ## `on_handshake_complete` (socket.c lines 737-744)

Clears the write and handshake callbacks, calls `decode_ssl_input` with its
return value discarded, then invokes the saved handshake callback with the
`err` argument `on_handshake_complete` itself received. -/

structure HandshakeCompleteOutcome where
  writeCbCleared : Bool
  handshakeCbCleared : Bool
  decodeResult : DecodeResult
  cbErr : Option String
deriving DecidableEq, Repr

def on_handshake_complete (err : Option String) (enc : Nat) (pending : Bool)
    (inputSize : Int) (script : List SslReadStep) : HandshakeCompleteOutcome :=
  { writeCbCleared := true
    handshakeCbCleared := true
    decodeResult := decodeLoop enc pending inputSize script
    cbErr := err }

/-! ## `shutdown_ssl` (socket.c lines 297-327)

The dispatcher's inputs: the `err` argument, whether a user write is in flight
(`sock->_cb.write != NULL`), the value returned by `SSL_shutdown`, the size of
outbound staging (`sock->ssl->output.bufs.size`), and whether
`SSL_get_error(sock->ssl->ssl, ret)` reports `SSL_ERROR_WANT_READ`. -/

inductive ShutdownAction where
  | dispose
  | flushThenDispose
  | flushThenShutdown
  | readStartShutdownSsl
deriving DecidableEq, Repr

def shutdown_ssl (err : Option String) (writeInFlight : Bool)
    (sslShutdownRet : Int) (outputSize : Nat) (wantRead : Bool) :
    ShutdownAction :=
  if err ≠ none then .dispose
  else if writeInFlight then .dispose
  else if sslShutdownRet = -1 then .dispose
  else if outputSize ≠ 0 then
    if sslShutdownRet = 1 then .flushThenDispose else .flushThenShutdown
  else if sslShutdownRet = 2 ∧ wantRead then .readStartShutdownSsl
  else .dispose

/-! ## `h2o_socket_export` (socket.c lines 341-361)

The function begins with `assert(!h2o_socket_is_writing(sock))`; there is no
`-1` return for a write in flight.  The only `-1` return follows a failing
backend `do_export`. -/

inductive ExportResult where
  | assertFailed
  | returnedMinusOne
  | returnedZero
deriving DecidableEq, Repr

def h2o_socket_export (isWriting : Bool) (doExportOk : Bool) : ExportResult :=
  if isWriting then .assertFailed
  else if doExportOk = false then .returnedMinusOne
  else .returnedZero

/-! ## TLS introspection accessors (socket.c lines 596-614)

`SslIntrospection` carries the values the OpenSSL accessors would return when
an engine is present (oracle values). -/

structure SslIntrospection where
  version : String
  sessionReused : Int
  cipherName : String
  cipherBits : Int
deriving DecidableEq, Repr

def h2o_socket_get_ssl_protocol_version (ssl : Option SslIntrospection) :
    Option String :=
  match ssl with
  | some s => some s.version
  | none => none

def h2o_socket_get_ssl_session_reused (ssl : Option SslIntrospection) : Int :=
  match ssl with
  | some s => s.sessionReused
  | none => -1

def h2o_socket_get_ssl_cipher (ssl : Option SslIntrospection) : Option String :=
  match ssl with
  | some s => some s.cipherName
  | none => none

def h2o_socket_get_ssl_cipher_bits (ssl : Option SslIntrospection) : Int :=
  match ssl with
  | some s => s.cipherBits
  | none => 0

/-! ## Latency optimizer
(`h2o_socket_do_prepare_for_latency_optimized_write`, socket.c lines 397-473)

The cipher `switch` at lines 412-430 contains no `break` statements: control
entering at an AES-GCM label executes `tls_overhead = 5 + 8 + 12`, then falls
through the ChaCha20-Poly1305 labels (`tls_overhead = 5 + 16`) and then the
`default` label (`goto Disable`); entering at a ChaCha label likewise falls
through to `default`.  The fall-through is embedded explicitly, one function
per straight-line segment of the switch body. -/

inductive CipherClass where
  | aesGcm
  | chacha20Poly1305
  | other
deriving DecidableEq, Repr

/-- The `default:` segment of the cipher switch: `goto Disable`, so no
overhead value survives.  The argument is the value `tls_overhead` holds on
entry (dead in the C code, kept to exhibit the flow). -/
def cipherSwitchFromDefault (_tls_overhead : Int) : Option Int := none

/-- The ChaCha20-Poly1305 segment: assigns `tls_overhead = 5 + 16` and falls
through to the `default` segment. -/
def cipherSwitchFromChacha (_tls_overhead : Int) : Option Int :=
  cipherSwitchFromDefault (5 + 16)

/-- The AES-GCM segment: assigns `tls_overhead = 5 + 8 + 12` and falls through
to the ChaCha segment. -/
def cipherSwitchFromAesGcm (_tls_overhead : Int) : Option Int :=
  cipherSwitchFromChacha (5 + 8 + 12)

/-- The whole cipher switch of socket.c lines 412-430: dispatch on the label
matching `cipher->id` and run the straight-line tail from there.  `none`
models reaching `goto Disable`.  (The initial `tls_overhead` is
uninitialized in C; `0` stands in, and no segment ever reads it.) -/
def cipherSwitchOverhead (c : CipherClass) : Option Int :=
  match c with
  | .aesGcm => cipherSwitchFromAesGcm 0
  | .chacha20Poly1305 => cipherSwitchFromChacha 0
  | .other => cipherSwitchFromDefault 0

/-- Modelled from the spec: the intended cipher-to-overhead mapping with no
fall-through ("AES-GCM: 5+8+12 = 25 bytes; ChaCha20-Poly1305: 5+16 = 21
bytes; other ciphers disable"), stated by §4.7 and §9 of the spec.  Used only
to exhibit what the claim expects of the switch. -/
def cipherOverheadIntended (c : CipherClass) : Option Int :=
  match c with
  | .aesGcm => some (5 + 8 + 12)
  | .chacha20Poly1305 => some (5 + 16)
  | .other => none

inductive LatencyOptimizationMode where
  | tbd
  | disabled
  | useTinyTlsRecords
  | useLargeTlsRecords
  | needsUpdate
deriving DecidableEq, Repr

/-- `sock->_latency_optimization` (fields declared outside src/, used by
socket.c; numeric fields modelled as Nat, faithful for the in-range values the
code stores: overhead 0/21/25, MSS and sizes from the kernel). -/
structure LatencyOptimizationState where
  mode : LatencyOptimizationMode
  tls_overhead : Nat
  mss : Nat
  suggested_write_size : Nat
deriving DecidableEq, Repr

/-- The fields of `struct tcp_info` the function reads. -/
structure TcpInfo where
  tcpi_rtt : Nat
  tcpi_snd_mss : Nat
  tcpi_snd_cwnd : Nat
  tcpi_unacked : Nat
deriving DecidableEq, Repr

/-- `SIZE_MAX` on the 64-bit platforms the code targets. -/
def SIZE_MAX : Nat := 2 ^ 64 - 1

/-- Outcome of `h2o_socket_do_prepare_for_latency_optimized_write`: the
updated `_latency_optimization` state and the returned size, or the
`h2o_fatal("unexpected mode")` abort of the `default:` arm. -/
inductive PrepareResult where
  | ok (st : LatencyOptimizationState) (ret : Nat)
  | fatal
deriving DecidableEq, Repr

/-- The shared tail of the function (socket.c lines 453-468): the
decision taken once "latency-optimization is enabled, and TCP_INFO is
obtained". -/
def latencyDecision (st : LatencyOptimizationState) (tcpi : TcpInfo) :
    PrepareResult :=
  if st.mss * tcpi.tcpi_snd_cwnd ≥ 65536 then
    .ok { st with mode := .useLargeTlsRecords } SIZE_MAX
  else
    let packets_sendable : Nat :=
      if tcpi.tcpi_snd_cwnd > tcpi.tcpi_unacked then
        tcpi.tcpi_snd_cwnd - tcpi.tcpi_unacked
      else 0
    let sws := (packets_sendable + 1) * (st.mss - st.tls_overhead)
    .ok { st with mode := .useTinyTlsRecords, suggested_write_size := sws } sws

/-- `h2o_socket_do_prepare_for_latency_optimized_write` (socket.c lines
397-473).  Oracles: `fetchedTcpInfo` is the result of `fetch_tcp_info`
(`none` = failure), `cipher` is the class of `SSL_get_current_cipher` when
`sock->ssl != NULL`, `setsockoptOk` is success of the `TCP_NOTSENT_LOWAT`
`setsockopt`. -/
def h2o_socket_do_prepare_for_latency_optimized_write
    (st : LatencyOptimizationState) (ssl : Option CipherClass)
    (minimum_rtt : Nat) (fetchedTcpInfo : Option TcpInfo)
    (setsockoptOk : Bool) : PrepareResult :=
  let disable : PrepareResult := .ok { st with mode := .disabled } SIZE_MAX
  match st.mode with
  | .tbd =>
    match fetchedTcpInfo with
    | none => disable
    | some tcpi =>
      if tcpi.tcpi_rtt < minimum_rtt then disable
      else
        let overhead? : Option Int :=
          match ssl with
          | some c => cipherSwitchOverhead c
          | none => some 0
        match overhead? with
        | none => disable
        | some tls_overhead =>
          if setsockoptOk = false then disable
          else
            latencyDecision
              { st with tls_overhead := tls_overhead.toNat,
                        mss := tcpi.tcpi_snd_mss } tcpi
  | .needsUpdate =>
    match fetchedTcpInfo with
    | none => .ok st SIZE_MAX
    | some tcpi => latencyDecision st tcpi
  | _ => .fatal

/-! ## Async-resumption recording step of `proceed_handshake`
(socket.c lines 757-765)

Before invoking the TLS engine, when the async-resumption state is RECORD:
if `encrypted->size <= 1024` a copy of the encrypted bytes is retained in
`first_input`; otherwise the state is forced to COMPLETE and nothing is
copied. -/

inductive AsyncResumptionState where
  | complete
  | record
  | requestSent
deriving DecidableEq, Repr

/-- The recording step: given the async-resumption state and the contents of
`sock->ssl->input.encrypted`, returns the retained `first_input` snapshot (if
any) and the state in effect when `SSL_accept`/`SSL_connect` is then
invoked. -/
def recordFirstInput (state : AsyncResumptionState) (encrypted : List Nat) :
    Option (List Nat) × AsyncResumptionState :=
  match state with
  | .record =>
    if encrypted.length ≤ 1024 then (some encrypted, .record)
    else (none, .complete)
  | s => (none, s)

/-! ## ALPN selection (`on_alpn_select`, socket.c lines 929-956)

The client list is a byte sequence of length-prefixed entries; the server list
is an array of protocols ordered by preference and terminated by a
zero-length entry.  The inner `while` loop walks the client bytes; it is
embedded with an explicit fuel argument (one unit per loop iteration; each
iteration consumes the length byte, so `client.length` fuel always
suffices), keeping the definition structurally recursive. -/

/-- The inner loop of `on_alpn_select` scanning the client list for one server
protocol.  `some true` = `goto Found`, `some false` = loop exhausted
(`in == in_end`), `none` = `return SSL_TLSEXT_ERR_NOACK` on a broken length
byte (`in_end - in < cand_len`). -/
def alpnScanFuel (proto : List Nat) : Nat → List Nat → Option Bool
  | _, [] => some false
  | 0, _ :: _ => some false
  | fuel + 1, cand_len :: rest =>
    if rest.length < cand_len then none
    else if cand_len = proto.length ∧ rest.take cand_len = proto then some true
    else alpnScanFuel proto fuel (rest.drop cand_len)

def alpnScan (proto : List Nat) (client : List Nat) : Option Bool :=
  alpnScanFuel proto client.length client

inductive AlpnResult where
  | ok (proto : List Nat)
  | noack
deriving DecidableEq, Repr

/-- `on_alpn_select`: the outer `for` loop over server protocols (stopping at
a zero-length entry, the array terminator), each iteration running the inner
scan; a broken client length byte returns NOACK from the whole function. -/
def on_alpn_select : List (List Nat) → List Nat → AlpnResult
  | [], _ => .noack
  | p :: ps, client =>
    if p.length = 0 then .noack
    else
      match alpnScan p client with
      | none => .noack
      | some true => .ok p
      | some false => on_alpn_select ps client

/-- Parser for the client list used to state `on_alpn_select`'s
specification: the entries readable before any broken length byte, and
whether the whole list is well-formed.  Same fuel discipline as the scan. -/
def alpnEntriesFuel : Nat → List Nat → List (List Nat) × Bool
  | _, [] => ([], true)
  | 0, _ :: _ => ([], true)
  | fuel + 1, cand_len :: rest =>
    if rest.length < cand_len then ([], false)
    else
      let t := alpnEntriesFuel fuel (rest.drop cand_len)
      (rest.take cand_len :: t.1, t.2)

def alpnEntries (client : List Nat) : List (List Nat) × Bool :=
  alpnEntriesFuel client.length client

/-! ## Peer-address comparison (`h2o_socket_compare_address`,
socket.c lines 629-660)

Supported families, with the fields the comparator reads.  IPv4 address and
port are modelled in host order (the code compares `ntohl`/`ntohs` of the
stored network-order fields; the conversion is injective, so equality of the
modelled values coincides with byte equality of the stored fields).  A unix
path is the byte content of its NUL-terminated string; the IPv6 address is
its 16 raw bytes. -/

inductive SockAddr where
  | unix (path : List Nat)
  | inet (addr : Nat) (port : Nat)
  | inet6 (addr : List Nat) (port : Nat) (flowinfo : Nat) (scope_id : Nat)
deriving DecidableEq, Repr

/-- Numeric `sa_family` values (system headers, Linux: AF_UNIX = 1,
AF_INET = 2, AF_INET6 = 10); only their distinctness and order matter. -/
def sa_family : SockAddr → Nat
  | .unix _ => 1
  | .inet _ _ => 2
  | .inet6 _ _ _ _ => 10

/-- The `CMP(a, b)` macro of socket.c line 631: `-1`/`1` on inequality, else
fall through (here: `0`). -/
def cmpNum (a b : Nat) : Int :=
  if a ≠ b then (if a < b then -1 else 1) else 0

/-- `strcmp` on NUL-terminated byte strings, modelled on their contents, with
result normalized to sign (a valid `strcmp` implementation); also serves as
`memcmp` for the equal-length IPv6 address fields, on which the two
functions agree. -/
def strcmpBytes : List Nat → List Nat → Int
  | [], [] => 0
  | [], _ :: _ => -1
  | _ :: _, [] => 1
  | a :: as, b :: bs =>
    if a ≠ b then (if a < b then -1 else 1) else strcmpBytes as bs

/-- `h2o_socket_compare_address`: order by family, then by the
family-specific fields (unix path by `strcmp`; IPv4 address then port; IPv6
address bytes, port, flowinfo, scope_id). -/
def h2o_socket_compare_address (x y : SockAddr) : Int :=
  if sa_family x ≠ sa_family y then cmpNum (sa_family x) (sa_family y)
  else
    match x, y with
    | .unix p, .unix q => strcmpBytes p q
    | .inet a1 p1, .inet a2 p2 =>
      if cmpNum a1 a2 ≠ 0 then cmpNum a1 a2 else cmpNum p1 p2
    | .inet6 a1 p1 f1 s1, .inet6 a2 p2 f2 s2 =>
      if strcmpBytes a1 a2 ≠ 0 then strcmpBytes a1 a2
      else if cmpNum p1 p2 ≠ 0 then cmpNum p1 p2
      else if cmpNum f1 f2 ≠ 0 then cmpNum f1 f2
      else cmpNum s1 s2
    | _, _ => 0

/-! ## Theorems -/

/-- C10: for every socket whose TLS adapter is absent, the TLS introspection
accessors return the fixed sentinels: protocol version `NULL`, cipher `NULL`,
cipher bits `0`, session-reused `-1`. -/
theorem c10_plaintext_accessors_sentinels (ssl : Option SslIntrospection)
    (h : ssl = none) :
    h2o_socket_get_ssl_protocol_version ssl = none ∧
    h2o_socket_get_ssl_cipher ssl = none ∧
    h2o_socket_get_ssl_cipher_bits ssl = 0 ∧
    h2o_socket_get_ssl_session_reused ssl = -1 := by
  subst h
  exact ⟨rfl, rfl, rfl, rfl⟩

/-- Witness for C10 at the concrete plaintext socket. -/
theorem c10_plaintext_accessors_sentinels_witness :
    h2o_socket_get_ssl_protocol_version none = none ∧
    h2o_socket_get_ssl_cipher none = none ∧
    h2o_socket_get_ssl_cipher_bits none = 0 ∧
    h2o_socket_get_ssl_session_reused none = -1 :=
  c10_plaintext_accessors_sentinels none rfl

/-- C3 counterexample: with a write in flight, `h2o_socket_export` hits
`assert(!h2o_socket_is_writing(sock))` and aborts; it does not return `-1`,
contradicting the claim. -/
theorem c3_export_counterexample :
    h2o_socket_export true true = .assertFailed ∧
    h2o_socket_export true true ≠ .returnedMinusOne := by
  decide

/-- C3 (amended): for every socket with a write in flight,
`h2o_socket_export` fails an assertion and aborts rather than returning `-1`;
`-1` is returned exactly when no write is in flight and the backend
`do_export` fails. -/
theorem c3_export_write_in_flight_asserts (w d : Bool) :
    (w = true → h2o_socket_export w d = .assertFailed) ∧
    (h2o_socket_export w d = .returnedMinusOne ↔ w = false ∧ d = false) := by
  cases w <;> cases d <;> decide

/-- Witness for C3 at a concrete writing socket. -/
theorem c3_export_write_in_flight_asserts_witness :
    h2o_socket_export true true = .assertFailed :=
  (c3_export_write_in_flight_asserts true true).1 rfl

/-- C2 counterexample: `err` null, no write in flight, `SSL_shutdown`
returning `0` (not `-1`), empty outbound staging, want-read reported — yet
`shutdown_ssl` disposes the socket instead of starting reads, because the
read-start branch additionally requires the return value `2`. -/
theorem c2_shutdown_counterexample :
    (0 : Int) ≠ -1 ∧
    shutdown_ssl none false 0 0 true = .dispose ∧
    shutdown_ssl none false 0 0 true ≠ .readStartShutdownSsl := by
  decide

/-- C2 (amended): in `shutdown_ssl`, whenever `err` is null, no user write is
in flight, outbound staging is empty, and `SSL_shutdown` returns `2` with
`SSL_get_error` reporting want-read, the socket starts reading with
`shutdown_ssl` as the read callback instead of being disposed; for any other
non-`-1` return value with empty staging the socket is disposed even if
want-read is reported. -/
theorem c2_shutdown_wantread_starts_read (err : Option String) (w : Bool)
    (ret : Int) (outSize : Nat) (wantRead : Bool) (h1 : err = none)
    (h2 : w = false) (h3 : outSize = 0) (h4 : ret = 2)
    (h5 : wantRead = true) :
    shutdown_ssl err w ret outSize wantRead = .readStartShutdownSsl := by
  subst h1; subst h2; subst h3; subst h4; subst h5
  decide

/-- Witness for C2 at the concrete want-read shutdown state. -/
theorem c2_shutdown_wantread_starts_read_witness :
    shutdown_ssl none false 2 0 true = .readStartShutdownSsl :=
  c2_shutdown_wantread_starts_read none false 2 0 true rfl rfl rfl rfl rfl

/-- C1 (code evaluated at the failing input): a TBD-mode TLS socket with an
AES-GCM cipher, measured RTT 100000 µs against `minimum_rtt` 50000, cwnd 10,
unacked 2, MSS 1460 and a successful `setsockopt` — the cipher `switch` falls
through from the AES-GCM labels to `default: goto Disable`, so the call sets
mode DISABLED and returns `SIZE_MAX`, not `12915` with USE_TINY as the claim
(and spec §4.7) state; the intended no-fall-through mapping would give
overhead 25. -/
theorem c1_aes_gcm_fallthrough_disables :
    h2o_socket_do_prepare_for_latency_optimized_write
        ⟨.tbd, 0, 0, 0⟩ (some .aesGcm) 50000 (some ⟨100000, 1460, 10, 2⟩) true
      = .ok ⟨.disabled, 0, 0, 0⟩ SIZE_MAX ∧
    cipherSwitchOverhead .aesGcm = none ∧
    cipherSwitchOverhead .chacha20Poly1305 = none ∧
    cipherOverheadIntended .aesGcm = some 25 ∧
    (10 - 2 + 1) * (1460 - 25) = 12915 := by
  decide

/-- C9: `on_handshake_complete` invokes the user handshake callback with
exactly its own `err` argument; the value returned by the `decode_ssl_input`
call is discarded, so a decode error never reaches the handshake callback. -/
theorem c9_handshake_cb_gets_own_error (err : Option String) (enc : Nat)
    (pending : Bool) (inputSize : Int) (script : List SslReadStep)
    (e : String) (_h : decodeLoop enc pending inputSize script = .err e) :
    (on_handshake_complete err enc pending inputSize script).cbErr = err :=
  rfl

/-- Witness for C9: the decode call fails with the renegotiation error while
the handshake itself succeeded; the callback still receives `none`. -/
theorem c9_handshake_cb_gets_own_error_witness :
    decodeLoop 1 false 0 [⟨true, 1, true, false, 0, false⟩]
      = .err renegotiationErrorLiteral ∧
    (on_handshake_complete none 1 false 0
        [⟨true, 1, true, false, 0, false⟩]).cbErr = none :=
  ⟨by decide,
   c9_handshake_cb_gets_own_error none 1 false 0
     [⟨true, 1, true, false, 0, false⟩] renegotiationErrorLiteral (by decide)⟩

/-- C6: in `proceed_handshake` with async-resumption state RECORD, an
encrypted-input buffer of at most 1024 bytes is snapshotted (copied) for
possible replay and the state is left as RECORD, while more than 1024 bytes
yields no snapshot and forces the state to COMPLETE before the TLS engine is
invoked. -/
theorem c6_record_snapshot_boundary (state : AsyncResumptionState)
    (encrypted : List Nat) (h : state = .record) :
    (encrypted.length ≤ 1024 →
      recordFirstInput state encrypted = (some encrypted, .record)) ∧
    (encrypted.length > 1024 →
      recordFirstInput state encrypted = (none, .complete)) := by
  subst h
  constructor
  · intro hle
    simp [recordFirstInput, hle]
  · intro hgt
    simp [recordFirstInput, Nat.not_le_of_lt hgt]

/-- Witness for C6 at the 1024- and 1025-byte boundaries. -/
theorem c6_record_snapshot_boundary_witness :
    recordFirstInput .record (List.replicate 1024 7)
      = (some (List.replicate 1024 7), .record) ∧
    recordFirstInput .record (List.replicate 1025 7) = (none, .complete) :=
  ⟨(c6_record_snapshot_boundary .record (List.replicate 1024 7) rfl).1
     (by rw [List.length_replicate]),
   (c6_record_snapshot_boundary .record (List.replicate 1025 7) rfl).2
     (by rw [List.length_replicate]; omega)⟩

/-- C4 counterexample: a decode run in which `SSL_read` sets the
`did_write_in_read` flag returns the literal `"ssl renegotiation not
supported"`, and that string is not among the exported constant error strings
of the catalog (socket.c lines 117-124 export no renegotiation entry), so the
returned value is not pointer-comparable against the catalog as the claim
states. -/
theorem c4_renegotiation_counterexample :
    decodeLoop 3 false 0 [⟨true, -1, true, true, 0, false⟩]
      = .err renegotiationErrorLiteral ∧
    renegotiationErrorLiteral ∉ errorCatalog := by
  decide

/-- C4 (amended): whenever the `did_write_in_read` flag is set during an
`SSL_read` call executed by the decode loop, `decode_ssl_input` returns the
fixed literal `"ssl renegotiation not supported"`; that literal is a constant
string, but it is not one of the exported error-catalog constants, so it
cannot be identified by pointer comparison against the catalog. -/
theorem c4_decode_flag_returns_renegotiation_literal (enc : Nat)
    (pending : Bool) (inputSize : Int) (script : List SslReadStep)
    (h : decodeLoopHitsDidWrite enc pending script = true) :
    decodeLoop enc pending inputSize script = .err renegotiationErrorLiteral ∧
    renegotiationErrorLiteral ∉ errorCatalog := by
  refine ⟨?_, by decide⟩
  induction script generalizing enc pending inputSize with
  | nil => simp [decodeLoopHitsDidWrite] at h
  | cons s rest ih =>
    by_cases h0 : enc = 0 ∧ pending = false
    · simp [decodeLoopHitsDidWrite, h0] at h
    · by_cases h1 : s.reserveOk = false
      · simp [decodeLoopHitsDidWrite, h0, h1] at h
      · by_cases h2 : s.didWrite = true
        · simp [decodeLoop, h0, h1, h2]
        · by_cases h3 : s.rlen = -1
          · simp [decodeLoopHitsDidWrite, h0, h1, h2, h3] at h
          · by_cases h4 : s.rlen = 0
            · simp [decodeLoopHitsDidWrite, h0, h1, h2, h3, h4] at h
            · have h' :
                  decodeLoopHitsDidWrite s.encAfter s.pendingAfter rest
                    = true := by
                simpa [decodeLoopHitsDidWrite, h0, h1, h2, h3, h4] using h
              simpa [decodeLoop, h0, h1, h2, h3, h4] using
                ih s.encAfter s.pendingAfter (inputSize + s.rlen) h'

/-- Witness for C4: a run whose second `SSL_read` sets the flag. -/
theorem c4_decode_flag_returns_renegotiation_literal_witness :
    decodeLoop 10 false 5
        [⟨true, 4, false, false, 6, false⟩, ⟨true, 1, true, false, 0, false⟩]
      = .err renegotiationErrorLiteral ∧
    renegotiationErrorLiteral ∉ errorCatalog :=
  c4_decode_flag_returns_renegotiation_literal 10 false 5
    [⟨true, 4, false, false, 6, false⟩, ⟨true, 1, true, false, 0, false⟩]
    (by decide)

/-- `packets_sendable` (socket.c line 465) coincides with truncated
subtraction, i.e. with `max(0, cwnd - unacked)`. -/
theorem packets_sendable_eq_sub (c u : Nat) :
    (if c > u then c - u else 0) = c - u := by
  split <;> omega

/-- C5: once TCP_INFO has been obtained and the optimizer is enabled (mode
NEEDS_UPDATE with a successful re-fetch), `MSS * cwnd >= 65536` switches the
mode to USE_LARGE_TLS_RECORDS and returns `SIZE_MAX`, while `MSS * cwnd <
65536` switches the mode to USE_TINY_TLS_RECORDS and returns
`(max(0, cwnd - unacked) + 1) * (MSS - tls_overhead)` (truncated subtraction
is exactly the `max(0, ...)`); the 65535/65536 boundary follows. -/
theorem c5_latency_decision (st : LatencyOptimizationState)
    (ssl : Option CipherClass) (minimum_rtt : Nat) (tcpi : TcpInfo)
    (setsockoptOk : Bool) (hmode : st.mode = .needsUpdate) :
    h2o_socket_do_prepare_for_latency_optimized_write st ssl minimum_rtt
        (some tcpi) setsockoptOk = latencyDecision st tcpi ∧
    (st.mss * tcpi.tcpi_snd_cwnd ≥ 65536 →
      latencyDecision st tcpi
        = .ok { st with mode := .useLargeTlsRecords } SIZE_MAX) ∧
    (st.mss * tcpi.tcpi_snd_cwnd < 65536 →
      latencyDecision st tcpi
        = .ok { st with mode := .useTinyTlsRecords,
                        suggested_write_size :=
                          (tcpi.tcpi_snd_cwnd - tcpi.tcpi_unacked + 1) *
                            (st.mss - st.tls_overhead) }
            ((tcpi.tcpi_snd_cwnd - tcpi.tcpi_unacked + 1) *
              (st.mss - st.tls_overhead))) := by
  refine ⟨?_, ?_, ?_⟩
  · simp [h2o_socket_do_prepare_for_latency_optimized_write, hmode]
  · intro hge
    simp [latencyDecision, hge]
  · intro hlt
    simp [latencyDecision, Nat.not_le.mpr hlt, packets_sendable_eq_sub]

/-- Witness for C5 at the two boundary inputs: `256 * 256 = 65536` (large)
and `255 * 257 = 65535` (tiny, returning `(255 - 2 + 1) * (255 - 25)`). -/
theorem c5_latency_decision_witness :
    h2o_socket_do_prepare_for_latency_optimized_write
        ⟨.needsUpdate, 25, 256, 0⟩ none 0 (some ⟨0, 0, 256, 0⟩) true
      = .ok ⟨.useLargeTlsRecords, 25, 256, 0⟩ SIZE_MAX ∧
    h2o_socket_do_prepare_for_latency_optimized_write
        ⟨.needsUpdate, 25, 255, 0⟩ none 0 (some ⟨0, 0, 257, 2⟩) true
      = .ok ⟨.useTinyTlsRecords, 25, 255, 58880⟩ 58880 :=
  ⟨((c5_latency_decision ⟨.needsUpdate, 25, 256, 0⟩ none 0 ⟨0, 0, 256, 0⟩
        true rfl).1).trans
     ((c5_latency_decision ⟨.needsUpdate, 25, 256, 0⟩ none 0 ⟨0, 0, 256, 0⟩
        true rfl).2.1 (by decide)),
   ((c5_latency_decision ⟨.needsUpdate, 25, 255, 0⟩ none 0 ⟨0, 0, 257, 2⟩
        true rfl).1).trans
     ((c5_latency_decision ⟨.needsUpdate, 25, 255, 0⟩ none 0 ⟨0, 0, 257, 2⟩
        true rfl).2.2 (by decide))⟩

/-- When the length byte is within bounds, the inner-loop match condition
`cand_len == protocols[i].len && memcmp(in, protocols[i].base, cand_len) == 0`
is equivalent to the scanned entry equalling the protocol. -/
theorem alpn_match_condition_iff (cand_len : Nat) (rest proto : List Nat)
    (hb : ¬rest.length < cand_len) :
    (cand_len = proto.length ∧ rest.take cand_len = proto) ↔
      rest.take cand_len = proto := by
  constructor
  · exact fun h => h.2
  · intro h
    refine ⟨?_, h⟩
    have hlen : (rest.take cand_len).length = cand_len := by
      rw [List.length_take]; omega
    rw [h] at hlen
    omega

/-- The inner scan finds a protocol exactly when it occurs among the entries
readable before any broken length byte; with no match it exhausts a
well-formed list and reports the broken byte of a malformed one. -/
theorem alpnScanFuel_spec (proto : List Nat) :
    ∀ (fuel : Nat) (client : List Nat),
      alpnScanFuel proto fuel client =
        if proto ∈ (alpnEntriesFuel fuel client).1 then some true
        else if (alpnEntriesFuel fuel client).2 = true then some false
        else none := by
  intro fuel
  induction fuel with
  | zero =>
    intro client
    cases client <;> simp [alpnScanFuel, alpnEntriesFuel]
  | succ n ih =>
    intro client
    cases client with
    | nil => simp [alpnScanFuel, alpnEntriesFuel]
    | cons cand_len rest =>
      by_cases hb : rest.length < cand_len
      · simp [alpnScanFuel, alpnEntriesFuel, hb]
      · by_cases hm : rest.take cand_len = proto
        · have hcl : cand_len = proto.length :=
            ((alpn_match_condition_iff cand_len rest proto hb).mpr hm).1
          subst hcl
          simp [alpnScanFuel, alpnEntriesFuel, hb, hm]
        · have hcond :
              ¬(cand_len = proto.length ∧ rest.take cand_len = proto) :=
            fun hc => hm hc.2
          have hm' : ¬proto = rest.take cand_len := fun hh => hm hh.symm
          simp [alpnScanFuel, alpnEntriesFuel, hb, hcond, hm', ih]

/-- On a well-formed client list, `on_alpn_select` returns the first
server-preferred protocol occurring among the client entries, else NOACK. -/
theorem on_alpn_select_wellformed (client : List Nat)
    (hwf : (alpnEntries client).2 = true) :
    ∀ protos : List (List Nat), (∀ p ∈ protos, p ≠ []) →
      on_alpn_select protos client =
        match protos.find? (fun p => decide (p ∈ (alpnEntries client).1)) with
        | some p => AlpnResult.ok p
        | none => AlpnResult.noack := by
  intro protos
  induction protos with
  | nil => intro _; simp [on_alpn_select]
  | cons p ps ih =>
    intro hne
    have hp : p ≠ [] := hne p (List.mem_cons_self p ps)
    have hlen : ¬p.length = 0 := by
      simpa [List.length_eq_zero] using hp
    have hscan := alpnScanFuel_spec p client.length client
    by_cases hmem : p ∈ (alpnEntriesFuel client.length client).1
    · rw [show (p :: ps).find?
            (fun q => decide (q ∈ (alpnEntries client).1)) = some p from
          List.find?_cons_of_pos _ (by simpa [alpnEntries] using hmem)]
      simp [on_alpn_select, hlen, alpnScan, hscan, hmem]
    · rw [show (p :: ps).find?
            (fun q => decide (q ∈ (alpnEntries client).1))
            = ps.find? (fun q => decide (q ∈ (alpnEntries client).1)) from
          List.find?_cons_of_neg _ (by simpa [alpnEntries] using hmem)]
      have hwf' : (alpnEntriesFuel client.length client).2 = true := hwf
      simp only [on_alpn_select, hlen, alpnScan, hscan, hmem, hwf',
        if_false, if_true, ite_false, ite_true]
      exact ih (fun q hq => hne q (List.mem_cons_of_mem p hq))

/-- On a malformed client list whose readable entries do not contain the
first server protocol, `on_alpn_select` returns NOACK: the scan of the first
protocol reaches the broken length byte and the whole function returns. -/
theorem on_alpn_select_malformed (client : List Nat)
    (hwf : (alpnEntries client).2 = false) (protos : List (List Nat))
    (hhead : ∀ p, protos.head? = some p → p ∉ (alpnEntries client).1) :
    on_alpn_select protos client = .noack := by
  cases protos with
  | nil => simp [on_alpn_select]
  | cons p ps =>
    have hmem : ¬p ∈ (alpnEntriesFuel client.length client).1 := hhead p rfl
    have hwf' : ¬(alpnEntriesFuel client.length client).2 = true := by
      simpa [alpnEntries] using hwf
    have hscan := alpnScanFuel_spec p client.length client
    by_cases hlen : p.length = 0
    · simp [on_alpn_select, hlen]
    · simp [on_alpn_select, hlen, alpnScan, hscan, hmem, hwf']

/-- C7: for every server protocol list (entries ordered by server preference;
the zero-length array terminator is the end of the list) and every client
length-prefixed protocol list: on a well-formed client list the selection
returns the first protocol in server-preference order that appears among the
client entries, and NOACK when none does (deterministically, being a
function); and when a client length prefix exceeds the remaining bytes, NOACK
is returned as soon as the scan reaches it (in particular whenever the first
server protocol matches none of the entries readable before the broken
prefix). -/
theorem c7_on_alpn_select_selection (protos : List (List Nat))
    (client : List Nat) :
    ((∀ p ∈ protos, p ≠ []) → (alpnEntries client).2 = true →
      on_alpn_select protos client =
        match protos.find? (fun p => decide (p ∈ (alpnEntries client).1)) with
        | some p => AlpnResult.ok p
        | none => AlpnResult.noack) ∧
    ((alpnEntries client).2 = false →
      (∀ p, protos.head? = some p → p ∉ (alpnEntries client).1) →
      on_alpn_select protos client = .noack) :=
  ⟨fun hne hwf => on_alpn_select_wellformed client hwf protos hne,
   fun hwf hhead => on_alpn_select_malformed client hwf protos hhead⟩

/-- Witness for C7: a well-formed client list offering `[9]` then `[1, 2]`
against server preference `[[1, 2], [3]]` selects `[1, 2]`; a malformed
client list (length byte `5` with one remaining byte) yields NOACK. -/
theorem c7_on_alpn_select_selection_witness :
    on_alpn_select [[1, 2], [3]] [1, 9, 2, 1, 2] = .ok [1, 2] ∧
    on_alpn_select [[1, 2], [3]] [5, 1] = .noack :=
  ⟨(c7_on_alpn_select_selection [[1, 2], [3]] [1, 9, 2, 1, 2]).1
     (by decide) (by decide),
   (c7_on_alpn_select_selection [[1, 2], [3]] [5, 1]).2
     (by decide) (by decide)⟩

theorem cmpNum_self (a : Nat) : cmpNum a a = 0 := by
  simp [cmpNum]

theorem cmpNum_eq_zero_iff (a b : Nat) : cmpNum a b = 0 ↔ a = b := by
  unfold cmpNum
  split_ifs with h1 h2
  · exact ⟨fun h => absurd h (by decide), fun h => absurd h h1⟩
  · exact ⟨fun h => absurd h (by decide), fun h => absurd h h1⟩
  · simp_all

theorem cmpNum_le_iff (a b : Nat) : cmpNum a b ≤ 0 ↔ a ≤ b := by
  unfold cmpNum
  split_ifs <;> omega

theorem cmpNum_neg_of_lt (a b : Nat) (h : a < b) : cmpNum a b = -1 := by
  unfold cmpNum
  split_ifs <;> omega

theorem cmpNum_neg (a b : Nat) : cmpNum a b = -cmpNum b a := by
  unfold cmpNum
  split_ifs <;> omega

theorem strcmpBytes_self (p : List Nat) : strcmpBytes p p = 0 := by
  induction p with
  | nil => rfl
  | cons a as ih => simp [strcmpBytes, ih]

theorem strcmpBytes_cons_self (a : Nat) (as bs : List Nat) :
    strcmpBytes (a :: as) (a :: bs) = strcmpBytes as bs := by
  simp [strcmpBytes]

theorem strcmpBytes_cons_of_ne (a b : Nat) (as bs : List Nat)
    (h : ¬a = b) :
    strcmpBytes (a :: as) (b :: bs) = if a < b then -1 else 1 := by
  simp [strcmpBytes, h]

theorem strcmpBytes_eq_zero_iff :
    ∀ p q : List Nat, strcmpBytes p q = 0 ↔ p = q := by
  intro p
  induction p with
  | nil => intro q; cases q <;> simp [strcmpBytes]
  | cons a as ih =>
    intro q
    cases q with
    | nil => simp [strcmpBytes]
    | cons b bs =>
      by_cases hab : a = b
      · rw [← hab, strcmpBytes_cons_self]
        simp [ih]
      · rw [strcmpBytes_cons_of_ne a b as bs hab]
        constructor
        · intro h
          exfalso
          split_ifs at h
          all_goals omega
        · intro h
          injection h with h1 _
          exact absurd h1 hab

theorem strcmpBytes_cases :
    ∀ p q : List Nat, strcmpBytes p q = -1 ∨ strcmpBytes p q = 0 ∨
      strcmpBytes p q = 1 := by
  intro p
  induction p with
  | nil => intro q; cases q <;> simp [strcmpBytes]
  | cons a as ih =>
    intro q
    cases q with
    | nil => simp [strcmpBytes]
    | cons b bs =>
      by_cases hab : a = b
      · rw [← hab, strcmpBytes_cons_self]
        exact ih bs
      · rw [strcmpBytes_cons_of_ne a b as bs hab]
        split_ifs <;> omega

theorem strcmpBytes_neg :
    ∀ p q : List Nat, strcmpBytes p q = -strcmpBytes q p := by
  intro p
  induction p with
  | nil => intro q; cases q <;> simp [strcmpBytes]
  | cons a as ih =>
    intro q
    cases q with
    | nil => simp [strcmpBytes]
    | cons b bs =>
      by_cases hab : a = b
      · rw [← hab, strcmpBytes_cons_self, strcmpBytes_cons_self]
        exact ih bs
      · have hba : ¬b = a := fun h => hab h.symm
        rw [strcmpBytes_cons_of_ne a b as bs hab,
          strcmpBytes_cons_of_ne b a bs as hba]
        split_ifs <;> omega

theorem strcmpBytes_neg_one_trans :
    ∀ p q r : List Nat, strcmpBytes p q = -1 → strcmpBytes q r = -1 →
      strcmpBytes p r = -1 := by
  intro p
  induction p with
  | nil =>
    intro q r hpq hqr
    cases q with
    | nil => simp [strcmpBytes] at hpq
    | cons b bs =>
      cases r with
      | nil => simp [strcmpBytes] at hqr
      | cons c cs => simp [strcmpBytes]
  | cons a as ih =>
    intro q r hpq hqr
    cases q with
    | nil => simp [strcmpBytes] at hpq
    | cons b bs =>
      cases r with
      | nil => simp [strcmpBytes] at hqr
      | cons c cs =>
        by_cases hab : a = b
        · rw [← hab] at hpq hqr
          rw [strcmpBytes_cons_self] at hpq
          by_cases hac : a = c
          · rw [← hac] at hqr ⊢
            rw [strcmpBytes_cons_self] at hqr
            rw [strcmpBytes_cons_self]
            exact ih bs cs hpq hqr
          · rw [strcmpBytes_cons_of_ne a c bs cs hac] at hqr
            rw [strcmpBytes_cons_of_ne a c as cs hac]
            exact hqr
        · rw [strcmpBytes_cons_of_ne a b as bs hab] at hpq
          have halb : a < b := by
            by_contra hnl
            rw [if_neg hnl] at hpq
            exact absurd hpq (by decide)
          by_cases hbc : b = c
          · rw [← hbc]
            rw [strcmpBytes_cons_of_ne a b as cs hab]
            rw [if_pos halb]
          · rw [strcmpBytes_cons_of_ne b c bs cs hbc] at hqr
            have hblc : b < c := by
              by_contra hnl
              rw [if_neg hnl] at hqr
              exact absurd hqr (by decide)
            have hac : ¬a = c := by omega
            rw [strcmpBytes_cons_of_ne a c as cs hac]
            rw [if_pos (show a < c by omega)]

theorem strcmpBytes_le_trans (p q r : List Nat) (hpq : strcmpBytes p q ≤ 0)
    (hqr : strcmpBytes q r ≤ 0) : strcmpBytes p r ≤ 0 := by
  rcases strcmpBytes_cases p q with h1 | h1 | h1
  · rcases strcmpBytes_cases q r with h2 | h2 | h2
    · have := strcmpBytes_neg_one_trans p q r h1 h2
      omega
    · have : q = r := (strcmpBytes_eq_zero_iff q r).mp h2
      subst this
      omega
    · omega
  · have : p = q := (strcmpBytes_eq_zero_iff p q).mp h1
    subst this
    exact hqr
  · omega

theorem strcmpBytes_antisymm (p q : List Nat) (hpq : strcmpBytes p q ≤ 0)
    (hqp : strcmpBytes q p ≤ 0) : p = q := by
  have hneg := strcmpBytes_neg p q
  exact (strcmpBytes_eq_zero_iff p q).mp (by omega)

theorem compare_unix_def (p q : List Nat) :
    h2o_socket_compare_address (.unix p) (.unix q) = strcmpBytes p q := rfl

theorem compare_inet_def (a1 p1 a2 p2 : Nat) :
    h2o_socket_compare_address (.inet a1 p1) (.inet a2 p2)
      = if cmpNum a1 a2 ≠ 0 then cmpNum a1 a2 else cmpNum p1 p2 := rfl

theorem compare_inet6_def (a1 : List Nat) (p1 f1 s1 : Nat) (a2 : List Nat)
    (p2 f2 s2 : Nat) :
    h2o_socket_compare_address (.inet6 a1 p1 f1 s1) (.inet6 a2 p2 f2 s2)
      = if strcmpBytes a1 a2 ≠ 0 then strcmpBytes a1 a2
        else if cmpNum p1 p2 ≠ 0 then cmpNum p1 p2
        else if cmpNum f1 f2 ≠ 0 then cmpNum f1 f2
        else cmpNum s1 s2 := rfl

theorem compare_unix_inet (p : List Nat) (a2 p2 : Nat) :
    h2o_socket_compare_address (.unix p) (.inet a2 p2) = -1 := rfl

theorem compare_unix_inet6 (p a2 : List Nat) (p2 f2 s2 : Nat) :
    h2o_socket_compare_address (.unix p) (.inet6 a2 p2 f2 s2) = -1 := rfl

theorem compare_inet_unix (a1 p1 : Nat) (q : List Nat) :
    h2o_socket_compare_address (.inet a1 p1) (.unix q) = 1 := rfl

theorem compare_inet_inet6 (a1 p1 : Nat) (a2 : List Nat) (p2 f2 s2 : Nat) :
    h2o_socket_compare_address (.inet a1 p1) (.inet6 a2 p2 f2 s2) = -1 := rfl

theorem compare_inet6_unix (a1 : List Nat) (p1 f1 s1 : Nat) (q : List Nat) :
    h2o_socket_compare_address (.inet6 a1 p1 f1 s1) (.unix q) = 1 := rfl

theorem compare_inet6_inet (a1 : List Nat) (p1 f1 s1 a2 p2 : Nat) :
    h2o_socket_compare_address (.inet6 a1 p1 f1 s1) (.inet a2 p2) = 1 := rfl

theorem compare_of_family_ne (x y : SockAddr)
    (h : sa_family x ≠ sa_family y) :
    h2o_socket_compare_address x y = cmpNum (sa_family x) (sa_family y) := by
  unfold h2o_socket_compare_address
  rw [if_pos h]

theorem compare_inet_le_iff (a1 p1 a2 p2 : Nat) :
    h2o_socket_compare_address (.inet a1 p1) (.inet a2 p2) ≤ 0 ↔
      (a1 < a2 ∨ (a1 = a2 ∧ p1 ≤ p2)) := by
  rw [compare_inet_def]
  unfold cmpNum
  split_ifs <;> omega

theorem compare_inet6_le_iff (a1 : List Nat) (p1 f1 s1 : Nat) (a2 : List Nat)
    (p2 f2 s2 : Nat) :
    h2o_socket_compare_address (.inet6 a1 p1 f1 s1) (.inet6 a2 p2 f2 s2) ≤ 0
      ↔ (strcmpBytes a1 a2 = -1 ∨
          (a1 = a2 ∧ (p1 < p2 ∨ (p1 = p2 ∧
            (f1 < f2 ∨ (f1 = f2 ∧ s1 ≤ s2)))))) := by
  rw [compare_inet6_def]
  rw [show (a1 = a2) ↔ strcmpBytes a1 a2 = 0 from
    (strcmpBytes_eq_zero_iff a1 a2).symm]
  have hcases := strcmpBytes_cases a1 a2
  unfold cmpNum
  split_ifs <;> omega

theorem compare_refl (x : SockAddr) : h2o_socket_compare_address x x = 0 := by
  rcases x with p | ⟨a, q⟩ | ⟨a, q, f, s⟩
  · rw [compare_unix_def]
    exact strcmpBytes_self p
  · rw [compare_inet_def]
    simp [cmpNum_self]
  · rw [compare_inet6_def]
    simp [cmpNum_self, strcmpBytes_self]

theorem compare_neg (x y : SockAddr) :
    h2o_socket_compare_address x y = -h2o_socket_compare_address y x := by
  rcases x with px | ⟨xa, xp⟩ | ⟨xa, xp, xf, xs⟩ <;>
    rcases y with py | ⟨ya, yp⟩ | ⟨ya, yp, yf, ys⟩
  · rw [compare_unix_def, compare_unix_def]
    exact strcmpBytes_neg px py
  · rw [compare_unix_inet, compare_inet_unix]
  · rw [compare_unix_inet6, compare_inet6_unix]
  · rw [compare_inet_unix, compare_unix_inet]
    decide
  · rw [compare_inet_def, compare_inet_def]
    have h1 := cmpNum_neg xa ya
    have h2 := cmpNum_neg xp yp
    by_cases hc : cmpNum xa ya = 0
    · have hc' : cmpNum ya xa = 0 := by omega
      simp [hc, hc', h2]
    · have hc' : ¬cmpNum ya xa = 0 := by omega
      simp [hc, hc', h1]
  · rw [compare_inet_inet6, compare_inet6_inet]
  · rw [compare_inet6_unix, compare_unix_inet6]
    decide
  · rw [compare_inet6_inet, compare_inet_inet6]
    decide
  · rw [compare_inet6_def, compare_inet6_def]
    have h1 := strcmpBytes_neg xa ya
    have h2 := cmpNum_neg xp yp
    have h3 := cmpNum_neg xf yf
    have h4 := cmpNum_neg xs ys
    by_cases hc : strcmpBytes xa ya = 0
    · have hc' : strcmpBytes ya xa = 0 := by omega
      by_cases hp : cmpNum xp yp = 0
      · have hp' : cmpNum yp xp = 0 := by omega
        by_cases hf : cmpNum xf yf = 0
        · have hf' : cmpNum yf xf = 0 := by omega
          simp [hc, hc', hp, hp', hf, hf', h4]
        · have hf' : ¬cmpNum yf xf = 0 := by omega
          simp [hc, hc', hp, hp', hf, hf', h3]
      · have hp' : ¬cmpNum yp xp = 0 := by omega
        simp [hc, hc', hp, hp', h2]
    · have hc' : ¬strcmpBytes ya xa = 0 := by omega
      simp [hc, hc', h1]

theorem compare_antisymm (x y : SockAddr)
    (h1 : h2o_socket_compare_address x y ≤ 0)
    (h2 : h2o_socket_compare_address y x ≤ 0) : x = y := by
  rcases x with px | ⟨xa, xp⟩ | ⟨xa, xp, xf, xs⟩ <;>
    rcases y with py | ⟨ya, yp⟩ | ⟨ya, yp, yf, ys⟩ <;>
      (try simp only [compare_unix_inet, compare_unix_inet6,
        compare_inet_unix, compare_inet_inet6, compare_inet6_unix,
        compare_inet6_inet] at h1 h2) <;>
      try omega
  · rw [compare_unix_def] at h1 h2
    rw [strcmpBytes_antisymm px py h1 h2]
  · rw [compare_inet_le_iff] at h1 h2
    have hxy : xa = ya ∧ xp = yp := by omega
    rw [hxy.1, hxy.2]
  · rw [compare_inet6_le_iff] at h1 h2
    have hneg := strcmpBytes_neg xa ya
    rcases strcmpBytes_cases xa ya with hs | hs | hs
    · exfalso
      rcases h2 with h2 | ⟨h2a, -⟩
      · omega
      · rw [h2a, strcmpBytes_self] at hs
        exact absurd hs (by decide)
    · have ha : xa = ya := (strcmpBytes_eq_zero_iff xa ya).mp hs
      subst ha
      rw [strcmpBytes_self] at hneg
      have harith : xp = yp ∧ xf = yf ∧ xs = ys := by
        rcases h1 with h1 | ⟨-, h1⟩
        · omega
        · rcases h2 with h2 | ⟨-, h2⟩
          · omega
          · omega
      rw [harith.1, harith.2.1, harith.2.2]
    · exfalso
      rcases h1 with h1 | ⟨h1a, -⟩
      · omega
      · rw [h1a, strcmpBytes_self] at hs
        exact absurd hs (by decide)

theorem compare_le_trans (x y z : SockAddr)
    (h1 : h2o_socket_compare_address x y ≤ 0)
    (h2 : h2o_socket_compare_address y z ≤ 0) :
    h2o_socket_compare_address x z ≤ 0 := by
  rcases x with px | ⟨xa, xp⟩ | ⟨xa, xp, xf, xs⟩ <;>
    rcases y with py | ⟨ya, yp⟩ | ⟨ya, yp, yf, ys⟩ <;>
      rcases z with pz | ⟨za, zp⟩ | ⟨za, zp, zf, zs⟩ <;>
        (try simp only [compare_unix_inet, compare_unix_inet6,
          compare_inet_unix, compare_inet_inet6, compare_inet6_unix,
          compare_inet6_inet] at h1 h2 ⊢) <;>
        try omega
  · rw [compare_unix_def] at h1 h2 ⊢
    exact strcmpBytes_le_trans px py pz h1 h2
  · rw [compare_inet_le_iff] at h1 h2 ⊢
    omega
  · rw [compare_inet6_le_iff] at h1 h2 ⊢
    rcases h1 with h1 | ⟨rfl, h1⟩
    · rcases h2 with h2 | ⟨rfl, h2⟩
      · exact Or.inl (strcmpBytes_neg_one_trans xa ya za h1 h2)
      · exact Or.inl h1
    · rcases h2 with h2 | ⟨rfl, h2⟩
      · exact Or.inl h2
      · exact Or.inr ⟨rfl, by omega⟩

theorem compare_le_total (x y : SockAddr) :
    h2o_socket_compare_address x y ≤ 0 ∨
      h2o_socket_compare_address y x ≤ 0 := by
  have hneg := compare_neg x y
  omega

theorem compare_eq_zero_iff (x y : SockAddr) :
    h2o_socket_compare_address x y = 0 ↔ x = y := by
  constructor
  · intro h
    have hneg := compare_neg x y
    exact compare_antisymm x y (by omega) (by omega)
  · intro h
    rw [h]
    exact compare_refl y

/-- C8: `h2o_socket_compare_address` is a total order on the supported
address families: reflexive, antisymmetric and transitive (with totality of
the induced `<= 0` relation), it compares `0` exactly on equal addresses
(family and address fields equal), it orders first by address family, and
within a family it compares the family-specific fields (unix path by
`strcmp`; IPv4 address then port; IPv6 address bytes, port, flowinfo,
scope_id, lexicographically). -/
theorem c8_compare_address_total_order :
    (∀ x : SockAddr, h2o_socket_compare_address x x = 0) ∧
    (∀ x y : SockAddr, h2o_socket_compare_address x y = 0 ↔ x = y) ∧
    (∀ x y : SockAddr, h2o_socket_compare_address x y ≤ 0 →
      h2o_socket_compare_address y x ≤ 0 → x = y) ∧
    (∀ x y z : SockAddr, h2o_socket_compare_address x y ≤ 0 →
      h2o_socket_compare_address y z ≤ 0 →
      h2o_socket_compare_address x z ≤ 0) ∧
    (∀ x y : SockAddr, h2o_socket_compare_address x y ≤ 0 ∨
      h2o_socket_compare_address y x ≤ 0) ∧
    (∀ x y : SockAddr, sa_family x < sa_family y →
      h2o_socket_compare_address x y = -1) ∧
    (∀ p q : List Nat,
      h2o_socket_compare_address (.unix p) (.unix q) = strcmpBytes p q) ∧
    (∀ a1 p1 a2 p2 : Nat,
      h2o_socket_compare_address (.inet a1 p1) (.inet a2 p2) ≤ 0 ↔
        (a1 < a2 ∨ (a1 = a2 ∧ p1 ≤ p2))) ∧
    (∀ (a1 : List Nat) (p1 f1 s1 : Nat) (a2 : List Nat) (p2 f2 s2 : Nat),
      h2o_socket_compare_address (.inet6 a1 p1 f1 s1) (.inet6 a2 p2 f2 s2)
          ≤ 0 ↔
        (strcmpBytes a1 a2 = -1 ∨
          (a1 = a2 ∧ (p1 < p2 ∨ (p1 = p2 ∧
            (f1 < f2 ∨ (f1 = f2 ∧ s1 ≤ s2))))))) :=
  ⟨compare_refl, compare_eq_zero_iff, compare_antisymm, compare_le_trans,
   compare_le_total,
   fun x y h =>
     (compare_of_family_ne x y (by omega)).trans
       (cmpNum_neg_of_lt (sa_family x) (sa_family y) h),
   compare_unix_def, compare_inet_le_iff, compare_inet6_le_iff⟩

/-- Witness for C8: the claim's clauses applied at concrete addresses,
discharging the ordering hypotheses there. -/
theorem c8_compare_address_total_order_witness :
    h2o_socket_compare_address (.inet 10 1) (.inet 10 3) ≤ 0 ∧
    h2o_socket_compare_address (.unix [1, 2]) (.unix [1, 2]) = 0 :=
  ⟨c8_compare_address_total_order.2.2.2.1 (.inet 10 1) (.inet 10 2)
     (.inet 10 3) (by decide) (by decide),
   (c8_compare_address_total_order.2.1 (.unix [1, 2]) (.unix [1, 2])).mpr
     rfl⟩

end H2OSocket
